import Mathlib

/-!
Shallow embedding of the agentic-email-relay core: the relay data model,
the policy evaluator, and the HTTP route guards for relay creation and
simulation.  The create and simulate route handlers are translated from
`src/unnamed/part_000` and `src/app/api/simulate/route.ts`; the relay
store (`lib/store.ts`) is not part of the visible sources, so its
evaluator and creation logic are modelled from the specification.
-/

namespace EmailRelay

/-- Auto-response configuration of a relay (`actions.autoResponse`). -/
structure AutoResponse where
  enabled : Bool
  subject : String
  body : String
deriving DecidableEq

/-- Action block of a relay (`actions` in `lib/types`). -/
structure RelayActions where
  forwardTo : List String
  cc : List String
  autoResponse : AutoResponse
  webhookUrl : Option String
deriving DecidableEq

/-- Condition block of a relay (`conditions` in `lib/types`). -/
structure RelayConditions where
  subjectKeywords : List String
  allowedSenders : List String
  matchAllKeywords : Bool
deriving DecidableEq

/-- A relay policy.  Field names follow the TypeScript `Relay` type. -/
structure Relay where
  id : String
  name : String
  description : String
  inboundAddress : String
  targetInbox : String
  actions : RelayActions
  conditions : RelayConditions
  active : Bool
deriving DecidableEq

/-- An inbound message descriptor (`RelayEvaluationRequest`).  The
TypeScript fields `from` and `to` are reserved words in Lean, so they are
named `fromAddr` and `toAddr` here. -/
structure InboundMessage where
  subject : String
  fromAddr : String
  toAddr : String
  cc : List String
  bodyPreview : Option String
deriving DecidableEq

/-- Per-relay evaluation outcome (`RelayEvaluationResult`). -/
structure EvaluationResult where
  relayId : String
  relayName : String
  matched : Bool
  reasons : List String
  actions : List String
deriving DecidableEq

/-- `matchHead n h` is true when the list `n` is an initial segment of `h`. -/
def matchHead : List Char → List Char → Bool
  | [], _ => true
  | _ :: _, [] => false
  | a :: as, b :: bs => a == b && matchHead as bs

/-- `occursIn n h` is true when `n` occurs contiguously inside `h`. -/
def occursIn (needle : List Char) : List Char → Bool
  | [] => matchHead needle []
  | c :: cs => matchHead needle (c :: cs) || occursIn needle cs

/-- The characters of a string, lower-cased character by character
(the embedding of JavaScript `toLowerCase`). -/
def lowerData (s : String) : List Char :=
  s.data.map Char.toLower

/-- Case-insensitive substring test used by the keyword check. -/
def containsCI (hay needle : String) : Bool :=
  occursIn (lowerData needle) (lowerData hay)

/-- The specification-level statement that `needle` occurs as a
case-insensitive substring of `hay`. -/
def substrCI (hay needle : String) : Prop :=
  ∃ p t : List Char, lowerData hay = p ++ lowerData needle ++ t

theorem matchHead_iff (n h : List Char) :
    matchHead n h = true ↔ ∃ t, h = n ++ t := by
  induction n generalizing h with
  | nil =>
    simp [matchHead]
  | cons a as ih =>
    cases h with
    | nil =>
      simp [matchHead]
    | cons b bs =>
      rw [matchHead, Bool.and_eq_true, beq_iff_eq, ih]
      constructor
      · rintro ⟨rfl, t, rfl⟩
        exact ⟨t, rfl⟩
      · rintro ⟨t, ht⟩
        rw [List.cons_append] at ht
        cases ht
        exact ⟨rfl, t, rfl⟩

theorem occursIn_iff (n h : List Char) :
    occursIn n h = true ↔ ∃ p t, h = p ++ n ++ t := by
  induction h with
  | nil =>
    rw [occursIn, matchHead_iff]
    constructor
    · rintro ⟨t, ht⟩
      exact ⟨[], t, by simpa using ht⟩
    · rintro ⟨p, t, ht⟩
      have h3 : p = [] ∧ n = [] ∧ t = [] := by simpa using ht.symm
      obtain ⟨rfl, rfl, rfl⟩ := h3
      exact ⟨[], rfl⟩
  | cons c cs ih =>
    rw [occursIn, Bool.or_eq_true, matchHead_iff, ih]
    constructor
    · rintro (⟨t, ht⟩ | ⟨p, t, ht⟩)
      · exact ⟨[], t, by simpa using ht⟩
      · exact ⟨c :: p, t, by simp [ht]⟩
    · rintro ⟨p, t, ht⟩
      cases p with
      | nil =>
        exact Or.inl ⟨t, by simpa using ht⟩
      | cons q qs =>
        rw [List.cons_append, List.cons_append] at ht
        cases ht
        exact Or.inr ⟨qs, t, rfl⟩

theorem containsCI_iff (hay needle : String) :
    containsCI hay needle = true ↔ substrCI hay needle := by
  rw [containsCI, occursIn_iff]
  exact Iff.rfl

/-- `afterLastAt cs` returns the suffix of `cs` following the last `'@'`
character, or `none` when `cs` has no `'@'`. -/
def afterLastAt : List Char → Option (List Char)
  | [] => none
  | c :: cs =>
    match afterLastAt cs with
    | some r => some r
    | none => if c == '@' then some cs else none

/-- Modelled from the spec: `lib/store.ts` is absent from the visible
sources, so the per-entry sender test of the evaluator is modelled from
§4.2 step 2 of the specification.  An entry matches when the sender
equals it case-insensitively, or when the entry begins with `'@'` and the
domain portion of the sender (after its last `'@'`) equals the entry
without the leading `'@'`, case-insensitively. -/
def matchesSender (sender entry : String) : Bool :=
  (lowerData sender == lowerData entry) ||
    (match entry.data with
     | [] => false
     | c :: suffix =>
       c == '@' &&
         (match afterLastAt sender.data with
          | some dom => (dom.map Char.toLower == suffix.map Char.toLower)
          | none => false))

/-- Modelled from the spec: sender check of the evaluator (§4.2 step 2);
passes trivially when `allowedSenders` is empty, otherwise when some
entry matches the sender. -/
def senderCheckPassed (msg : InboundMessage) (r : Relay) : Bool :=
  r.conditions.allowedSenders.isEmpty ||
    r.conditions.allowedSenders.any (fun e => matchesSender msg.fromAddr e)

/-- Modelled from the spec: keyword check of the evaluator (§4.2 step 3);
passes trivially when `subjectKeywords` is empty, otherwise all keywords
(when `matchAllKeywords` is true) or some keyword (when false) must occur
case-insensitively in the subject. -/
def keywordCheckPassed (msg : InboundMessage) (r : Relay) : Bool :=
  if r.conditions.subjectKeywords.isEmpty then true
  else if r.conditions.matchAllKeywords then
    r.conditions.subjectKeywords.all (fun k => containsCI msg.subject k)
  else
    r.conditions.subjectKeywords.any (fun k => containsCI msg.subject k)

/-- Modelled from the spec: the sender contribution to `reasons` (§4.2
step 2 fixes the empty-list wording; the other strings are unspecified
and chosen here). -/
def senderReason (msg : InboundMessage) (r : Relay) : String :=
  if r.conditions.allowedSenders.isEmpty then "no sender restriction"
  else
    match r.conditions.allowedSenders.find? (fun e => matchesSender msg.fromAddr e) with
    | some e => "sender allowed by " ++ e
    | none => "sender " ++ msg.fromAddr ++ " not in allow-list"

/-- Modelled from the spec: the keyword contribution to `reasons` (§4.2
step 3 fixes the empty-list wording; the other strings are unspecified
and chosen here). -/
def keywordReason (msg : InboundMessage) (r : Relay) : String :=
  if r.conditions.subjectKeywords.isEmpty then "no keyword restriction"
  else
    "keywords matched: " ++
      String.intercalate ", "
        (r.conditions.subjectKeywords.filter (fun k => containsCI msg.subject k)) ++
      "; keywords missing: " ++
      String.intercalate ", "
        (r.conditions.subjectKeywords.filter (fun k => !(containsCI msg.subject k)))

/-- One action description per `forwardTo` address. -/
def forwardEntries (r : Relay) : List String :=
  r.actions.forwardTo.map (fun a => "forward to " ++ a)

/-- One action description for `cc` when it is non-empty. -/
def ccEntry (r : Relay) : List String :=
  if r.actions.cc.isEmpty then []
  else ["cc " ++ String.intercalate ", " r.actions.cc]

/-- One action description when the auto-response is enabled. -/
def autoEntry (r : Relay) : List String :=
  if r.actions.autoResponse.enabled then
    ["send auto-response " ++ r.actions.autoResponse.subject]
  else []

/-- One action description when a webhook URL is set. -/
def webhookEntry (r : Relay) : List String :=
  match r.actions.webhookUrl with
  | some u => ["notify webhook " ++ u]
  | none => []

/-- Modelled from the spec: action projection of the evaluator (§4.2
step 5), in the fixed order forward, cc, auto-response, webhook. -/
def projectActions (r : Relay) : List String :=
  forwardEntries r ++ ccEntry r ++ autoEntry r ++ webhookEntry r

/-- Modelled from the spec: per-relay evaluation (`lib/store.ts` is
absent from the visible sources; §4.2 steps 1-5). -/
def evaluateRelay (msg : InboundMessage) (r : Relay) : EvaluationResult :=
  if r.active then
    { relayId := r.id
      relayName := r.name
      matched := senderCheckPassed msg r && keywordCheckPassed msg r
      reasons := [senderReason msg r, keywordReason msg r]
      actions :=
        if senderCheckPassed msg r && keywordCheckPassed msg r then projectActions r
        else [] }
  else
    { relayId := r.id
      relayName := r.name
      matched := false
      reasons := ["relay is paused"]
      actions := [] }

/-- Modelled from the spec: `relayStore.evaluateEmail` maps per-relay
evaluation over the relay list in registry order (§4.2). -/
def evaluateEmail (msg : InboundMessage) (relays : List Relay) : List EvaluationResult :=
  relays.map (fun r => evaluateRelay msg r)

/-- In-memory relay store state.  Modelled from the spec: `lib/store.ts`
is absent from the visible sources; the registry keeps relays in
creation order and generates fresh ids from a counter (§4.1). -/
structure Store where
  relays : List Relay
  nextId : Nat
deriving DecidableEq

/-- The fully-defaulted relay definition the create route passes to
`relayStore.createRelay` (`src/unnamed/part_000`, lines 21-42). -/
structure RelayDefinition where
  name : String
  description : String
  inboundAddress : String
  targetInbox : String
  actions : RelayActions
  conditions : RelayConditions
  active : Bool
deriving DecidableEq

/-- Deduplicate a list of strings keeping the first occurrence of each. -/
def dedupKeepFirst : List String → List String
  | [] => []
  | x :: xs => x :: dedupKeepFirst (xs.filter (fun y => !(y == x)))
termination_by l => l.length
decreasing_by
  simp only [List.length_cons]
  exact Nat.lt_succ_of_le (List.length_filter_le _ _)

/-- Whitespace test used by `trimStr`. -/
def isSpaceChar (c : Char) : Bool :=
  c == ' ' || c == '\t' || c == '\n' || c == '\r'

/-- Leading and trailing whitespace removal on character lists. -/
def trimChars (cs : List Char) : List Char :=
  ((cs.dropWhile isSpaceChar).reverse.dropWhile isSpaceChar).reverse

/-- The embedding of JavaScript string trimming used by the registry's
list normalization. -/
def trimStr (s : String) : String :=
  String.mk (trimChars s.data)

/-- Modelled from the spec: list-field normalization of the registry —
trim entries, drop empties, deduplicate preserving first-seen order
(§4.1). -/
def normalizeList (xs : List String) : List String :=
  dedupKeepFirst ((xs.map trimStr).filter (fun s => !(s == "")))

/-- Modelled from the spec: `relayStore.createRelay` assigns a fresh id,
normalizes the list fields, appends the relay to the store and returns
it (§4.1). -/
def createRelay (d : RelayDefinition) (st : Store) : Relay × Store :=
  let relay : Relay :=
    { id := "relay-" ++ toString st.nextId
      name := d.name
      description := d.description
      inboundAddress := d.inboundAddress
      targetInbox := d.targetInbox
      actions :=
        { forwardTo := normalizeList d.actions.forwardTo
          cc := normalizeList d.actions.cc
          autoResponse := d.actions.autoResponse
          webhookUrl := d.actions.webhookUrl }
      conditions :=
        { subjectKeywords := normalizeList d.conditions.subjectKeywords
          allowedSenders := normalizeList d.conditions.allowedSenders
          matchAllKeywords := d.conditions.matchAllKeywords }
      active := d.active }
  (relay, { relays := st.relays ++ [relay], nextId := st.nextId + 1 })

/-- A create request body (`Partial<Relay>` in `src/unnamed/part_000`):
every field may be absent.  The nested `actions`/`conditions` objects
are flattened; a missing object makes all of its fields absent, which
the route treats identically. -/
structure CreateRequest where
  name : Option String
  description : Option String
  inboundAddress : Option String
  targetInbox : Option String
  forwardTo : Option (List String)
  cc : Option (List String)
  autoResponse : Option AutoResponse
  webhookUrl : Option String
  subjectKeywords : Option (List String)
  allowedSenders : Option (List String)
  matchAllKeywords : Option Bool
  active : Option Bool
deriving DecidableEq

/-- JavaScript falsiness of an optional string field: absent (undefined
or null) or the empty string. -/
def isBlank : Option String → Bool
  | none => true
  | some s => s == ""

/-- Specification-level wording of `isBlank`: the field is missing or
blank. -/
abbrev blankOpt (o : Option String) : Prop := o = none ∨ o = some ""

/-- The relay definition the create route builds from a request body,
applying the `??` defaults of `src/unnamed/part_000` lines 21-42. -/
def requestDefinition (body : CreateRequest) : RelayDefinition :=
  { name := body.name.getD ""
    description := body.description.getD ""
    inboundAddress := body.inboundAddress.getD ""
    targetInbox := body.targetInbox.getD ""
    actions :=
      { forwardTo := body.forwardTo.getD [body.targetInbox.getD ""]
        cc := body.cc.getD []
        autoResponse := body.autoResponse.getD { enabled := false, subject := "", body := "" }
        webhookUrl := body.webhookUrl }
    conditions :=
      { subjectKeywords := body.subjectKeywords.getD []
        allowedSenders := body.allowedSenders.getD []
        matchAllKeywords := body.matchAllKeywords.getD false }
    active := body.active.getD true }

/-- The create route handler (`POST` in `src/unnamed/part_000`): reject
when `name`, `inboundAddress` or `targetInbox` is falsy, otherwise
create and return the relay. -/
def postRelay (body : CreateRequest) (st : Store) : Except String Relay × Store :=
  if isBlank body.name || isBlank body.inboundAddress || isBlank body.targetInbox then
    (Except.error "name, inboundAddress, and targetInbox are required", st)
  else
    (Except.ok (createRelay (requestDefinition body) st).1,
      (createRelay (requestDefinition body) st).2)

/-- A simulate request body (`RelayEvaluationRequest` as received by
`src/app/api/simulate/route.ts`): the required fields may be absent. -/
structure SimRequest where
  subject : Option String
  fromAddr : Option String
  toAddr : Option String
  cc : Option (List String)
  bodyPreview : Option String
deriving DecidableEq

/-- The message the simulate route hands to the evaluator. -/
def toMessage (body : SimRequest) : InboundMessage :=
  { subject := body.subject.getD ""
    fromAddr := body.fromAddr.getD ""
    toAddr := body.toAddr.getD ""
    cc := body.cc.getD []
    bodyPreview := body.bodyPreview }

/-- The simulate route handler (`POST` in
`src/app/api/simulate/route.ts`): reject when `subject`, `from` or `to`
is falsy, otherwise evaluate the message against all stored relays. -/
def simulatePost (body : SimRequest) (st : Store) : Except String (List EvaluationResult) :=
  if isBlank body.subject || isBlank body.fromAddr || isBlank body.toAddr then
    Except.error "subject, from, and to fields are required"
  else
    Except.ok (evaluateEmail (toMessage body) st.relays)

/-- Fixture: action block used by the sample relays. -/
def sampleActions : RelayActions :=
  { forwardTo := ["team@relayhq.dev"]
    cc := []
    autoResponse := { enabled := false, subject := "", body := "" }
    webhookUrl := none }

/-- Fixture: a relay restricting senders to the `enterprise.com` domain. -/
def enterpriseRelay : Relay :=
  { id := "relay-0"
    name := "Enterprise"
    description := ""
    inboundAddress := "alerts@relayhq.dev"
    targetInbox := "team@relayhq.dev"
    actions := sampleActions
    conditions :=
      { subjectKeywords := []
        allowedSenders := ["@enterprise.com"]
        matchAllKeywords := false }
    active := true }

/-- Fixture: `enterpriseRelay` paused. -/
def pausedRelay : Relay :=
  { enterpriseRelay with active := false }

/-- Fixture: a relay matching the keyword `urgent` in the subject. -/
def keywordRelay : Relay :=
  { enterpriseRelay with
      conditions :=
        { subjectKeywords := ["urgent"]
          allowedSenders := []
          matchAllKeywords := false } }

/-- Fixture: a message sent from `ceo@enterprise.com`. -/
def ceoMsg : InboundMessage :=
  { subject := "URGENT outage"
    fromAddr := "ceo@enterprise.com"
    toAddr := "alerts@relayhq.dev"
    cc := []
    bodyPreview := none }

/-- Fixture: a message whose sender domain merely ends in
`enterprise.com`. -/
def evilMsg : InboundMessage :=
  { subject := "URGENT outage"
    fromAddr := "ceo@enterprise.com.evil.com"
    toAddr := "alerts@relayhq.dev"
    cc := []
    bodyPreview := none }

/-- Fixture: the empty store. -/
def emptyStore : Store :=
  { relays := [], nextId := 0 }

theorem isEmpty_false_of_ne_nil {α : Type} {l : List α} (h : l ≠ []) :
    l.isEmpty = false := by
  cases l with
  | nil => exact absurd rfl h
  | cons a as => rfl

/-- The specification-level statement of the sender check for a
non-empty allow-list (§4.2 step 2): the sender equals some entry
case-insensitively, or some entry starts with `'@'` and the domain
portion of the sender equals the entry's suffix case-insensitively. -/
def senderAllowedSpec (msg : InboundMessage) (r : Relay) : Prop :=
  ∃ e ∈ r.conditions.allowedSenders,
    lowerData msg.fromAddr = lowerData e ∨
      ∃ suffix, e.data = '@' :: suffix ∧
        ∃ dom, afterLastAt msg.fromAddr.data = some dom ∧
          dom.map Char.toLower = suffix.map Char.toLower

theorem matchesSender_iff (sender entry : String) :
    matchesSender sender entry = true ↔
      lowerData sender = lowerData entry ∨
        ∃ suffix, entry.data = '@' :: suffix ∧
          ∃ dom, afterLastAt sender.data = some dom ∧
            dom.map Char.toLower = suffix.map Char.toLower := by
  rw [matchesSender, Bool.or_eq_true, beq_iff_eq]
  refine or_congr Iff.rfl ?_
  cases hd : entry.data with
  | nil =>
    simp [hd]
  | cons c cs =>
    simp only [hd]
    rw [Bool.and_eq_true, beq_iff_eq]
    cases ha : afterLastAt sender.data with
    | none =>
      simp [ha]
    | some dom =>
      simp only [ha]
      rw [beq_iff_eq]
      constructor
      · rintro ⟨rfl, h⟩
        exact ⟨cs, rfl, dom, rfl, h⟩
      · rintro ⟨suffix, hsuf, dom2, hdom, h⟩
        injection hdom with hdome
        subst hdome
        injection hsuf with hc hcs
        subst hc
        subst hcs
        exact ⟨rfl, h⟩

theorem evaluateRelay_eq_paused (msg : InboundMessage) (r : Relay)
    (h : r.active = false) :
    evaluateRelay msg r =
      { relayId := r.id, relayName := r.name, matched := false,
        reasons := ["relay is paused"], actions := [] } := by
  simp [evaluateRelay, h]

theorem evaluateRelay_eq_active (msg : InboundMessage) (r : Relay)
    (h : r.active = true) :
    evaluateRelay msg r =
      { relayId := r.id, relayName := r.name,
        matched := senderCheckPassed msg r && keywordCheckPassed msg r,
        reasons := [senderReason msg r, keywordReason msg r],
        actions :=
          if senderCheckPassed msg r && keywordCheckPassed msg r then projectActions r
          else [] } := by
  simp [evaluateRelay, h]

theorem evaluateRelay_relayId (msg : InboundMessage) (r : Relay) :
    (evaluateRelay msg r).relayId = r.id := by
  cases h : r.active with
  | false => rw [evaluateRelay_eq_paused msg r h]
  | true => rw [evaluateRelay_eq_active msg r h]

theorem evaluateRelay_relayName (msg : InboundMessage) (r : Relay) :
    (evaluateRelay msg r).relayName = r.name := by
  cases h : r.active with
  | false => rw [evaluateRelay_eq_paused msg r h]
  | true => rw [evaluateRelay_eq_active msg r h]

/-- Claim C1: for every relay with non-empty `allowedSenders`, the sender
check passes iff the `from` address equals some entry case-insensitively
or some entry begins with `'@'` and the domain of `from` (after its last
`'@'`) equals that entry without the leading `'@'` case-insensitively;
in particular `"@enterprise.com"` matches `"ceo@enterprise.com"` and not
`"ceo@enterprise.com.evil.com"`. -/
theorem senderCheck_characterization :
    (∀ (msg : InboundMessage) (r : Relay),
        r.conditions.allowedSenders ≠ [] →
        (senderCheckPassed msg r = true ↔ senderAllowedSpec msg r)) ∧
      senderCheckPassed ceoMsg enterpriseRelay = true ∧
      senderCheckPassed evilMsg enterpriseRelay = false := by
  refine ⟨?_, by decide, by decide⟩
  intro msg r h
  unfold senderAllowedSpec
  rw [senderCheckPassed, Bool.or_eq_true, List.any_eq_true,
    isEmpty_false_of_ne_nil h]
  constructor
  · rintro (hfalse | ⟨e, hmem, hms⟩)
    · cases hfalse
    · exact ⟨e, hmem, (matchesSender_iff _ _).mp hms⟩
  · rintro ⟨e, hmem, hspec⟩
    exact Or.inr ⟨e, hmem, (matchesSender_iff _ _).mpr hspec⟩

/-- Witness for C1 at the enterprise-domain fixture. -/
theorem senderCheck_characterization_witness :
    senderCheckPassed ceoMsg enterpriseRelay = true ↔
      senderAllowedSpec ceoMsg enterpriseRelay :=
  senderCheck_characterization.1 ceoMsg enterpriseRelay (by decide)

/-- Claim C2: an inactive relay always yields `matched = false`, reasons
`["relay is paused"]` and no actions, independently of the message and
of the sender/keyword conditions. -/
theorem paused_relay_result (msg : InboundMessage) (r : Relay)
    (h : r.active = false) :
    evaluateRelay msg r =
      { relayId := r.id, relayName := r.name, matched := false,
        reasons := ["relay is paused"], actions := [] } :=
  evaluateRelay_eq_paused msg r h

/-- Witness for C2 at the paused fixture relay. -/
theorem paused_relay_result_witness :
    evaluateRelay ceoMsg pausedRelay =
      { relayId := pausedRelay.id, relayName := pausedRelay.name,
        matched := false, reasons := ["relay is paused"], actions := [] } :=
  paused_relay_result ceoMsg pausedRelay rfl

/-- Claim C3: with non-empty `subjectKeywords` the keyword check passes iff
all keywords (under `matchAllKeywords = true`) or some keyword (under
`matchAllKeywords = false`) occur case-insensitively in the subject;
with empty `subjectKeywords` it always passes. -/
theorem keywordCheck_characterization :
    (∀ (msg : InboundMessage) (r : Relay),
        r.conditions.subjectKeywords ≠ [] →
        r.conditions.matchAllKeywords = true →
        (keywordCheckPassed msg r = true ↔
          ∀ k ∈ r.conditions.subjectKeywords, substrCI msg.subject k)) ∧
    (∀ (msg : InboundMessage) (r : Relay),
        r.conditions.subjectKeywords ≠ [] →
        r.conditions.matchAllKeywords = false →
        (keywordCheckPassed msg r = true ↔
          ∃ k ∈ r.conditions.subjectKeywords, substrCI msg.subject k)) ∧
    (∀ (msg : InboundMessage) (r : Relay),
        r.conditions.subjectKeywords = [] →
        keywordCheckPassed msg r = true) := by
  refine ⟨?_, ?_, ?_⟩
  · intro msg r h hall
    simp [keywordCheckPassed, isEmpty_false_of_ne_nil h, hall,
      List.all_eq_true, containsCI_iff]
  · intro msg r h hany
    simp [keywordCheckPassed, isEmpty_false_of_ne_nil h, hany,
      List.any_eq_true, containsCI_iff]
  · intro msg r h
    simp [keywordCheckPassed, h]

/-- Witness for C3 at the `urgent` keyword fixture. -/
theorem keywordCheck_characterization_witness :
    keywordCheckPassed ceoMsg keywordRelay = true ↔
      ∃ k ∈ keywordRelay.conditions.subjectKeywords,
        substrCI ceoMsg.subject k :=
  keywordCheck_characterization.2.1 ceoMsg keywordRelay (by decide) rfl

/-- Claim C4: `actions` is empty whenever `matched` is false; when `matched`
is true it is the fixed-order concatenation of one entry per `forwardTo`
address, one `cc` entry if `cc` is non-empty, one auto-response entry if
enabled and one webhook entry if set, hence non-empty whenever
`forwardTo` is non-empty. -/
theorem actions_projection_shape (msg : InboundMessage) (r : Relay) :
    ((evaluateRelay msg r).matched = false → (evaluateRelay msg r).actions = []) ∧
    ((evaluateRelay msg r).matched = true →
      (evaluateRelay msg r).actions =
        forwardEntries r ++ ccEntry r ++ autoEntry r ++ webhookEntry r) ∧
    (forwardEntries r).length = r.actions.forwardTo.length ∧
    (ccEntry r).length = (if r.actions.cc = [] then 0 else 1) ∧
    (autoEntry r).length = (if r.actions.autoResponse.enabled = true then 1 else 0) ∧
    (webhookEntry r).length = (if (r.actions.webhookUrl).isSome = true then 1 else 0) ∧
    ((evaluateRelay msg r).matched = true → r.actions.forwardTo ≠ [] →
      (evaluateRelay msg r).actions ≠ []) := by
  have hlen1 : (forwardEntries r).length = r.actions.forwardTo.length := by
    simp [forwardEntries]
  have hlen2 : (ccEntry r).length = (if r.actions.cc = [] then 0 else 1) := by
    by_cases hc : r.actions.cc = []
    · simp [ccEntry, hc]
    · simp [ccEntry, isEmpty_false_of_ne_nil hc, hc]
  have hlen3 : (autoEntry r).length =
      (if r.actions.autoResponse.enabled = true then 1 else 0) := by
    cases hae : r.actions.autoResponse.enabled <;> simp [autoEntry, hae]
  have hlen4 : (webhookEntry r).length =
      (if (r.actions.webhookUrl).isSome = true then 1 else 0) := by
    cases hw : r.actions.webhookUrl <;> simp [webhookEntry, hw]
  cases hact : r.active with
  | false =>
    rw [evaluateRelay_eq_paused msg r hact]
    exact ⟨fun _ => rfl, fun hm => absurd hm (by simp), hlen1, hlen2, hlen3,
      hlen4, fun hm _ => absurd hm (by simp)⟩
  | true =>
    rw [evaluateRelay_eq_active msg r hact]
    cases hmk : (senderCheckPassed msg r && keywordCheckPassed msg r) with
    | false =>
      refine ⟨fun _ => by simp, fun hm => absurd hm (by simp), hlen1, hlen2,
        hlen3, hlen4, fun hm _ => absurd hm (by simp)⟩
    | true =>
      refine ⟨fun hm => absurd hm (by simp), fun _ => by simp [projectActions],
        hlen1, hlen2, hlen3, hlen4, fun _ hfwd => ?_⟩
      intro hnil
      simp only [if_true, projectActions] at hnil
      rcases List.append_eq_nil.mp hnil with ⟨h1, _⟩
      rcases List.append_eq_nil.mp h1 with ⟨h2, _⟩
      rcases List.append_eq_nil.mp h2 with ⟨h3, _⟩
      rw [forwardEntries, List.map_eq_nil_iff] at h3
      exact hfwd h3

/-- Witness for C4 at a matched fixture with a non-empty forward list. -/
theorem actions_projection_shape_witness :
    (evaluateRelay ceoMsg enterpriseRelay).actions ≠ [] :=
  (actions_projection_shape ceoMsg enterpriseRelay).2.2.2.2.2.2 (by decide)
    (by decide)

/-- Claim C5: evaluation returns exactly one result per input relay, in input
order, never omitting unmatched or paused relays: the result list has
the same length as the relay list and the result at each index carries
the id and name of the relay at that index. -/
theorem evaluateEmail_shape (msg : InboundMessage) (relays : List Relay) :
    (evaluateEmail msg relays).length = relays.length ∧
    ∀ i : Nat,
      ((evaluateEmail msg relays)[i]?).map EvaluationResult.relayId =
          (relays[i]?).map Relay.id ∧
        ((evaluateEmail msg relays)[i]?).map EvaluationResult.relayName =
          (relays[i]?).map Relay.name := by
  refine ⟨by simp [evaluateEmail], ?_⟩
  intro i
  rw [evaluateEmail, List.getElem?_map]
  cases relays[i]? with
  | none => exact ⟨rfl, rfl⟩
  | some r =>
    exact ⟨by simp [evaluateRelay_relayId], by simp [evaluateRelay_relayName]⟩

/-- Claim C6: evaluation is deterministic — identical message and relay-list
inputs produce identical result lists (the evaluator is a pure function
of its inputs). -/
theorem evaluateEmail_deterministic (msg1 msg2 : InboundMessage)
    (rs1 rs2 : List Relay) (hmsg : msg1 = msg2) (hrel : rs1 = rs2) :
    evaluateEmail msg1 rs1 = evaluateEmail msg2 rs2 := by
  rw [hmsg, hrel]

/-- Witness for C6 at the enterprise fixture. -/
theorem evaluateEmail_deterministic_witness :
    evaluateEmail ceoMsg [enterpriseRelay] = evaluateEmail ceoMsg [enterpriseRelay] :=
  evaluateEmail_deterministic ceoMsg ceoMsg [enterpriseRelay] [enterpriseRelay]
    rfl rfl

theorem isBlank_eq_true_iff (o : Option String) :
    isBlank o = true ↔ blankOpt o := by
  cases o with
  | none => simp [isBlank, blankOpt]
  | some s => simp [isBlank, blankOpt]

/-- Claim C7: relay creation fails (and stores nothing) exactly when `name`,
`inboundAddress` or `targetInbox` is missing or blank; otherwise the
relay is appended to the store and returned. -/
theorem postRelay_validation (body : CreateRequest) (st : Store) :
    ((∃ e, (postRelay body st).1 = Except.error e) ↔
        (blankOpt body.name ∨ blankOpt body.inboundAddress ∨
          blankOpt body.targetInbox)) ∧
    ((∃ e, (postRelay body st).1 = Except.error e) →
      (postRelay body st).2 = st) ∧
    (∀ r, (postRelay body st).1 = Except.ok r →
      (postRelay body st).2.relays = st.relays ++ [r]) := by
  cases hcond : (isBlank body.name || isBlank body.inboundAddress ||
      isBlank body.targetInbox) with
  | true =>
    have h1 : (postRelay body st).1 =
        Except.error "name, inboundAddress, and targetInbox are required" := by
      simp [postRelay, hcond]
    have h2 : (postRelay body st).2 = st := by
      simp [postRelay, hcond]
    have hor : blankOpt body.name ∨ blankOpt body.inboundAddress ∨
        blankOpt body.targetInbox := by
      rw [Bool.or_eq_true, Bool.or_eq_true] at hcond
      rcases hcond with (h | h) | h
      · exact Or.inl ((isBlank_eq_true_iff _).mp h)
      · exact Or.inr (Or.inl ((isBlank_eq_true_iff _).mp h))
      · exact Or.inr (Or.inr ((isBlank_eq_true_iff _).mp h))
    refine ⟨⟨fun _ => hor, fun _ => ⟨_, h1⟩⟩, fun _ => h2, ?_⟩
    intro r hr
    rw [h1] at hr
    cases hr
  | false =>
    have h1 : (postRelay body st).1 =
        Except.ok (createRelay (requestDefinition body) st).1 := by
      simp [postRelay, hcond]
    have h2 : (postRelay body st).2 =
        (createRelay (requestDefinition body) st).2 := by
      simp [postRelay, hcond]
    have hnor : ¬(blankOpt body.name ∨ blankOpt body.inboundAddress ∨
        blankOpt body.targetInbox) := by
      intro hor
      have htrue : (isBlank body.name || isBlank body.inboundAddress ||
          isBlank body.targetInbox) = true := by
        rw [Bool.or_eq_true, Bool.or_eq_true]
        rcases hor with h | h | h
        · exact Or.inl (Or.inl ((isBlank_eq_true_iff _).mpr h))
        · exact Or.inl (Or.inr ((isBlank_eq_true_iff _).mpr h))
        · exact Or.inr ((isBlank_eq_true_iff _).mpr h)
      rw [hcond] at htrue
      cases htrue
    refine ⟨⟨?_, fun hor => absurd hor hnor⟩, ?_, ?_⟩
    · rintro ⟨e, he⟩
      rw [h1] at he
      cases he
    · rintro ⟨e, he⟩
      rw [h1] at he
      cases he
    · intro r hr
      rw [h1] at hr
      injection hr with hre
      subst hre
      rw [h2]
      rfl

/-- Fixture: a create request with every field absent. -/
def emptyBody : CreateRequest :=
  { name := none, description := none, inboundAddress := none,
    targetInbox := none, forwardTo := none, cc := none,
    autoResponse := none, webhookUrl := none, subjectKeywords := none,
    allowedSenders := none, matchAllKeywords := none, active := none }

/-- Witness for C7: the empty request is rejected. -/
theorem postRelay_validation_witness :
    ∃ e, (postRelay emptyBody emptyStore).1 = Except.error e :=
  (postRelay_validation emptyBody emptyStore).1.mpr (Or.inl (Or.inl rfl))

/-- Claim C8: when `forwardTo` is omitted in a valid create request whose
`targetInbox` is a trimmed non-empty address, the stored relay's
`forwardTo` is exactly `[targetInbox]`. -/
theorem createRelay_default_forwardTo (body : CreateRequest) (st : Store)
    (t : String) (hfwd : body.forwardTo = none)
    (htarget : body.targetInbox = some t) (hne : t ≠ "")
    (htrim : trimStr t = t) (hname : isBlank body.name = false)
    (hinbound : isBlank body.inboundAddress = false) :
    ∃ r, (postRelay body st).1 = Except.ok r ∧
      r.actions.forwardTo = [r.targetInbox] := by
  have hblank : isBlank body.targetInbox = false := by
    rw [htarget]
    simp [isBlank, hne]
  have hcond : (isBlank body.name || isBlank body.inboundAddress ||
      isBlank body.targetInbox) = false := by
    rw [hname, hinbound, hblank]
    rfl
  refine ⟨(createRelay (requestDefinition body) st).1, by simp [postRelay, hcond], ?_⟩
  have hd1 : (requestDefinition body).actions.forwardTo = [t] := by
    simp [requestDefinition, hfwd, htarget]
  have hd2 : (requestDefinition body).targetInbox = t := by
    simp [requestDefinition, htarget]
  show normalizeList (requestDefinition body).actions.forwardTo =
    [(requestDefinition body).targetInbox]
  rw [hd1, hd2]
  simp [normalizeList, htrim, hne, dedupKeepFirst]

/-- Fixture: a valid create request that omits `forwardTo`. -/
def defaultBody : CreateRequest :=
  { name := some "Escalations", description := none,
    inboundAddress := some "alerts@relayhq.dev",
    targetInbox := some "team@relayhq.dev", forwardTo := none, cc := none,
    autoResponse := none, webhookUrl := none, subjectKeywords := none,
    allowedSenders := none, matchAllKeywords := none, active := none }

/-- Witness for C8 at the default-forward fixture request. -/
theorem createRelay_default_forwardTo_witness :
    ∃ r, (postRelay defaultBody emptyStore).1 = Except.ok r ∧
      r.actions.forwardTo = [r.targetInbox] :=
  createRelay_default_forwardTo defaultBody emptyStore "team@relayhq.dev"
    rfl rfl (by decide) (by decide) rfl rfl

/-- Fixture: a valid create request omitting `forwardTo` whose
`targetInbox` carries surrounding whitespace. -/
def untrimmedBody : CreateRequest :=
  { name := some "Untrimmed", description := none,
    inboundAddress := some "alerts@relayhq.dev",
    targetInbox := some " team@x.dev ", forwardTo := none, cc := none,
    autoResponse := none, webhookUrl := none, subjectKeywords := none,
    allowedSenders := none, matchAllKeywords := none, active := none }

/-- Counterexample to claim C8 as stated for every create request: with
`forwardTo` omitted and `targetInbox = " team@x.dev "`, the request is
accepted and stored, but list normalization trims the defaulted forward
entry while `targetInbox` keeps its whitespace, so the stored
`forwardTo` is not `[targetInbox]`. -/
theorem createRelay_default_forwardTo_counterexample :
    ∃ r, (postRelay untrimmedBody emptyStore).1 = Except.ok r ∧
      r.targetInbox = " team@x.dev " ∧
      r.actions.forwardTo = ["team@x.dev"] ∧
      r.actions.forwardTo ≠ [r.targetInbox] := by
  have hcond : (isBlank untrimmedBody.name ||
      isBlank untrimmedBody.inboundAddress ||
      isBlank untrimmedBody.targetInbox) = false := by decide
  have hfwd : (createRelay (requestDefinition untrimmedBody) emptyStore).1.actions.forwardTo =
      ["team@x.dev"] := by
    show normalizeList (requestDefinition untrimmedBody).actions.forwardTo =
      ["team@x.dev"]
    have h1 : (((requestDefinition untrimmedBody).actions.forwardTo.map trimStr).filter
        (fun s => !(s == ""))) = ["team@x.dev"] := by decide
    rw [normalizeList, h1]
    simp [dedupKeepFirst]
  refine ⟨(createRelay (requestDefinition untrimmedBody) emptyStore).1,
    by simp [postRelay, hcond], rfl, hfwd, ?_⟩
  rw [hfwd]
  decide

/-- Claim C9: the simulate route rejects a request whose `subject`, `from` or
`to` is missing or empty without invoking the evaluator, and otherwise
always returns the evaluator's result — the evaluator itself is a total
function and never fails. -/
theorem simulate_validation (body : SimRequest) (st : Store) :
    ((∃ e, simulatePost body st = Except.error e) ↔
        (blankOpt body.subject ∨ blankOpt body.fromAddr ∨
          blankOpt body.toAddr)) ∧
    (¬(blankOpt body.subject ∨ blankOpt body.fromAddr ∨
          blankOpt body.toAddr) →
      simulatePost body st =
        Except.ok (evaluateEmail (toMessage body) st.relays)) := by
  cases hcond : (isBlank body.subject || isBlank body.fromAddr ||
      isBlank body.toAddr) with
  | true =>
    have h1 : simulatePost body st =
        Except.error "subject, from, and to fields are required" := by
      simp [simulatePost, hcond]
    have hor : blankOpt body.subject ∨ blankOpt body.fromAddr ∨
        blankOpt body.toAddr := by
      rw [Bool.or_eq_true, Bool.or_eq_true] at hcond
      rcases hcond with (h | h) | h
      · exact Or.inl ((isBlank_eq_true_iff _).mp h)
      · exact Or.inr (Or.inl ((isBlank_eq_true_iff _).mp h))
      · exact Or.inr (Or.inr ((isBlank_eq_true_iff _).mp h))
    exact ⟨⟨fun _ => hor, fun _ => ⟨_, h1⟩⟩, fun hn => absurd hor hn⟩
  | false =>
    have h1 : simulatePost body st =
        Except.ok (evaluateEmail (toMessage body) st.relays) := by
      simp [simulatePost, hcond]
    have hnor : ¬(blankOpt body.subject ∨ blankOpt body.fromAddr ∨
        blankOpt body.toAddr) := by
      intro hor
      have htrue : (isBlank body.subject || isBlank body.fromAddr ||
          isBlank body.toAddr) = true := by
        rw [Bool.or_eq_true, Bool.or_eq_true]
        rcases hor with h | h | h
        · exact Or.inl (Or.inl ((isBlank_eq_true_iff _).mpr h))
        · exact Or.inl (Or.inr ((isBlank_eq_true_iff _).mpr h))
        · exact Or.inr ((isBlank_eq_true_iff _).mpr h)
      rw [hcond] at htrue
      cases htrue
    refine ⟨⟨?_, fun hor => absurd hor hnor⟩, fun _ => h1⟩
    rintro ⟨e, he⟩
    rw [h1] at he
    cases he

/-- Fixture: a well-formed simulate request. -/
def goodSim : SimRequest :=
  { subject := some "Your invoice is ready"
    fromAddr := some "ops@billing.com"
    toAddr := some "x@y.com"
    cc := none
    bodyPreview := none }

/-- Witness for C9: a well-formed request reaches the evaluator. -/
theorem simulate_validation_witness :
    simulatePost goodSim emptyStore =
      Except.ok (evaluateEmail (toMessage goodSim) emptyStore.relays) :=
  (simulate_validation goodSim emptyStore).2 (by decide)

/-- Claim C10: a create request supplying `forwardTo` as an explicit empty
list stores an empty forward list — the `[targetInbox]` default applies
only when the field is absent — so a matched evaluation of the stored
relay produces no forward action entries. -/
theorem createRelay_explicit_empty_forwardTo (body : CreateRequest)
    (st : Store) (hfwd : body.forwardTo = some [])
    (hname : isBlank body.name = false)
    (hinbound : isBlank body.inboundAddress = false)
    (htarget : isBlank body.targetInbox = false) :
    ∃ r, (postRelay body st).1 = Except.ok r ∧ r.actions.forwardTo = [] ∧
      ∀ msg : InboundMessage, (evaluateRelay msg r).matched = true →
        (evaluateRelay msg r).actions = ccEntry r ++ autoEntry r ++ webhookEntry r := by
  have hcond : (isBlank body.name || isBlank body.inboundAddress ||
      isBlank body.targetInbox) = false := by
    rw [hname, hinbound, htarget]
    rfl
  have hfe : (createRelay (requestDefinition body) st).1.actions.forwardTo = [] := by
    show normalizeList (requestDefinition body).actions.forwardTo = []
    have hd1 : (requestDefinition body).actions.forwardTo = [] := by
      simp [requestDefinition, hfwd]
    rw [hd1]
    simp [normalizeList, dedupKeepFirst]
  refine ⟨(createRelay (requestDefinition body) st).1,
    by simp [postRelay, hcond], hfe, ?_⟩
  intro msg hm
  cases hact : (createRelay (requestDefinition body) st).1.active with
  | false =>
    rw [evaluateRelay_eq_paused _ _ hact] at hm
    cases hm
  | true =>
    rw [evaluateRelay_eq_active _ _ hact] at hm ⊢
    replace hm :
        (senderCheckPassed msg (createRelay (requestDefinition body) st).1 &&
          keywordCheckPassed msg (createRelay (requestDefinition body) st).1) = true := hm
    simp [hm, projectActions, forwardEntries, hfe]

/-- Fixture: a valid create request with an explicit empty forward
list. -/
def emptyForwardBody : CreateRequest :=
  { name := some "Webhook only", description := none,
    inboundAddress := some "hooks@relayhq.dev",
    targetInbox := some "team@relayhq.dev", forwardTo := some [],
    cc := none, autoResponse := none,
    webhookUrl := some "https://hooks.example.dev/relay",
    subjectKeywords := none, allowedSenders := none,
    matchAllKeywords := none, active := none }

/-- Witness for C10 at the empty-forward fixture request. -/
theorem createRelay_explicit_empty_forwardTo_witness :
    ∃ r, (postRelay emptyForwardBody emptyStore).1 = Except.ok r ∧
      r.actions.forwardTo = [] ∧
      ∀ msg : InboundMessage, (evaluateRelay msg r).matched = true →
        (evaluateRelay msg r).actions = ccEntry r ++ autoEntry r ++ webhookEntry r :=
  createRelay_explicit_empty_forwardTo emptyForwardBody emptyStore rfl rfl rfl rfl

end EmailRelay
